import Mathlib

/-!
Verification of the marshaling and query-building layer of the
python-quickbooks client library (file quickbooks/mixins.py).

The embedding models:
- JSON values (JVal) as produced and consumed by the json module;
- Python runtime values (PyVal) as they appear on entity instances:
  None, str, int, bool, decimal.Decimal (kept as its exact string
  representation, which str() returns unchanged), plain dicts, lists,
  and entity instances (a class name plus an attribute dict);
- entity classes (TyDesc): the class name together with the per-class
  static tables class_dict, list_dict and detail_dict used by decoding;
- the mixin operations to_json, from_json, save, delete, void,
  get_void_params, get_void_data, download_pdf, where and all, with the
  transport client abstracted as response functions and every remote
  call recorded in a trace.

Fallible Python code (code that can raise) is modelled with Except;
the error type PyExc distinguishes the QuickbooksException raised by
the precondition checks from built-in exceptions.
-/

/-- JSON values, as parsed or emitted by the json module. Object fields
are kept as an ordered association list (json.loads yields dicts with
unique keys, and dumps with sort_keys emits keys sorted). Floating point
numbers do not occur in the modelled fragment; integers are exact. -/
inductive JVal where
  | jnull
  | jstr (s : String)
  | jint (n : Int)
  | jbool (b : Bool)
  | jobj (fields : List (String × JVal))
  | jarr (elems : List JVal)

/-- Python runtime values as they appear on entity instances.
A decimal.Decimal is carried as its exact decimal string (the literal it
was constructed from, which str() reproduces exactly). An entity
instance (vobj) is its class name together with its attribute dict. -/
inductive PyVal where
  | vnone
  | vstr (s : String)
  | vint (n : Int)
  | vbool (b : Bool)
  | vdec (s : String)
  | vdict (fields : List (String × PyVal))
  | vlist (elems : List PyVal)
  | vobj (ty : String) (fields : List (String × PyVal))

/-- An entity class: its name and the static decode tables declared on
it (class_dict, list_dict, detail_dict in mixins.py). -/
inductive TyDesc where
  | mk (name : String) (class_dict : List (String × TyDesc))
       (list_dict : List (String × TyDesc)) (detail_dict : List (String × TyDesc))

def TyDesc.name : TyDesc → String
  | .mk n _ _ _ => n

def TyDesc.class_dict : TyDesc → List (String × TyDesc)
  | .mk _ c _ _ => c

def TyDesc.list_dict : TyDesc → List (String × TyDesc)
  | .mk _ _ l _ => l

def TyDesc.detail_dict : TyDesc → List (String × TyDesc)
  | .mk _ _ _ d => d

/-- Python exceptions raised by the modelled code. quickbooksException
is the domain error from quickbooks/exceptions.py; the others are the
built-ins that the corresponding Python operations raise. -/
inductive PyExc where
  | quickbooksException (msg : String)
  | typeError (msg : String)
  | valueError (msg : String)
  | keyError (key : String)

/-- Association-list lookup, the model of Python dict indexing /
`key in dict` membership (dicts in the modelled code have unique keys). -/
def alookup {α : Type} (k : String) : List (String × α) → Option α
  | [] => none
  | (k2, v) :: rest => if k = k2 then some v else alookup k rest

/-- Python dict/attribute assignment: an existing key is overwritten in
place (dicts preserve insertion order), a new key is appended. -/
def aset {α : Type} (k : String) (v : α) : List (String × α) → List (String × α)
  | [] => [(k, v)]
  | (k2, v2) :: rest => if k = k2 then (k, v) :: rest else (k2, v2) :: aset k v rest

/-- getattr on an entity instance dict. Modelled from the spec: entity
class bodies are not in src/; per the spec every entity declares Id and
SyncToken, and instances are created empty, so a missing instance
attribute falls back to the class default None. -/
def getattr (fields : List (String × PyVal)) (k : String) : PyVal :=
  (alookup k fields).getD .vnone

/-- Attribute access on a decoded result object (always a vobj). -/
def PyVal.attr (v : PyVal) (k : String) : PyVal :=
  match v with
  | .vobj _ fields => (alookup k fields).getD .vnone
  | _ => .vnone

/-- True when the decimal string denotes zero: every character is a
zero digit, a sign, or the point (exponent forms are not used in the
modelled code). -/
def dec_is_zero (s : String) : Bool :=
  s.toList.all (fun c => c = '0' || c = '.' || c = '-' || c = '+')

/-- Python truthiness of a value, as used by `if not self.Id` and the
query builders. -/
def py_truthy : PyVal → Bool
  | .vnone => false
  | .vstr s => !s.isEmpty
  | .vint n => n != 0
  | .vbool b => b
  | .vdec s => !dec_is_zero s
  | .vdict fields => !fields.isEmpty
  | .vlist elems => !elems.isEmpty
  | .vobj _ _ => true

/-- int(x): exact for int and bool; parses a (trimmed) numeric string,
raising ValueError otherwise; truncates a Decimal toward zero; raises
TypeError on the remaining types. -/
def py_int : PyVal → Except PyExc Int
  | .vint n => pure n
  | .vbool b => pure (if b then 1 else 0)
  | .vstr s =>
    match s.trim.toInt? with
    | some n => pure n
    | none => throw (.valueError ("invalid literal for int: " ++ s))
  | .vdec s =>
    match (s.trim.takeWhile (fun c => c ≠ '.')).toInt? with
    | some n => pure n
    | none => throw (.valueError ("invalid literal for int: " ++ s))
  | .vnone => throw (.typeError "int() argument must not be None")
  | _ => throw (.typeError "int() argument of wrong type")

def PyVal.isNone : PyVal → Bool
  | .vnone => true
  | _ => false

/-- Code-point lexicographic order on character lists, the order Python
uses to compare strings (and hence the order of sort_keys). -/
def chars_le : List Char → List Char → Bool
  | [], _ => true
  | _ :: _, [] => false
  | a :: as, b :: bs => if a = b then chars_le as bs else decide (a < b)

/-- Python string comparison a <= b. -/
def str_le (a b : String) : Bool := chars_le a.toList b.toList

/-- k.startswith of a single underscore: the first character is it. -/
def underscored (k : String) : Bool :=
  match k.toList with
  | c :: _ => c = '_'
  | [] => false

/-- Sorting of emitted object fields by key: json.dumps(sort_keys=True). -/
def sortFields (l : List (String × JVal)) : List (String × JVal) :=
  List.insertionSort (fun p q => str_le p.1 q.1 = true) l

mutual
/-- json.dumps serialization of one Python value under the arguments
used by ToJsonMixin.to_json: cls=DecimalEncoder, default=json_filter(),
sort_keys=True. A Decimal goes through the default lambda and is emitted
as its exact string; an entity instance goes through the default lambda,
which drops attributes whose name starts with an underscore and
attributes whose value is None, and the resulting dict is emitted with
its keys sorted; plain dicts and lists serialize natively (dict values
that are None stay as null, dict keys are still sorted). -/
def dumps_val : PyVal → JVal
  | .vnone => .jnull
  | .vstr s => .jstr s
  | .vint n => .jint n
  | .vbool b => .jbool b
  | .vdec s => .jstr s
  | .vdict fields => .jobj (sortFields (dumps_fields fields))
  | .vlist elems => .jarr (dumps_list elems)
  | .vobj _ fields => .jobj (sortFields (dumps_objfields fields))

/-- Serialization of a plain dict: every pair is kept. -/
def dumps_fields : List (String × PyVal) → List (String × JVal)
  | [] => []
  | (k, v) :: rest => (k, dumps_val v) :: dumps_fields rest

/-- Serialization of an entity attribute dict through json_filter: pairs
whose key starts with an underscore or whose value is None are dropped. -/
def dumps_objfields : List (String × PyVal) → List (String × JVal)
  | [] => []
  | (k, v) :: rest =>
    if !underscored k && !v.isNone then (k, dumps_val v) :: dumps_objfields rest
    else dumps_objfields rest

/-- Serialization of a list, element-wise. -/
def dumps_list : List PyVal → List JVal
  | [] => []
  | v :: rest => dumps_val v :: dumps_list rest
end

/-- ToJsonMixin.to_json on an entity instance with the given attribute
dict: the JSON object structure of the emitted string (the string
rendering with indent=4 is a bijective pretty-printing of this tree). -/
def ToJsonMixin.to_json (self : List (String × PyVal)) : JVal :=
  .jobj (sortFields (dumps_objfields self))

mutual
/-- Raw conversion of a parsed JSON value to the Python value that
json.loads yields: objects become plain dicts, arrays become lists. -/
def jToPy : JVal → PyVal
  | .jnull => .vnone
  | .jstr s => .vstr s
  | .jint n => .vint n
  | .jbool b => .vbool b
  | .jobj fields => .vdict (jToPy_fields fields)
  | .jarr elems => .vlist (jToPy_list elems)

def jToPy_fields : List (String × JVal) → List (String × PyVal)
  | [] => []
  | (k, v) :: rest => (k, jToPy v) :: jToPy_fields rest

def jToPy_list : List JVal → List PyVal
  | [] => []
  | v :: rest => jToPy v :: jToPy_list rest
end

/-- The DetailType discriminator of one list element, when the element
is a JSON object carrying a string under that key (a non-string value
never matches the string keys of a detail_dict). -/
def detail_of (data : JVal) : Option String :=
  match data with
  | .jobj fields =>
    match alookup "DetailType" fields with
    | some (.jstr s) => some s
    | _ => none
  | _ => none

mutual
/-- FromJsonMixin.from_json: builds a fresh instance of the class and
assigns one attribute per key of the input object. A key in class_dict
decodes its value as the mapped nested class; a key in list_dict decodes
each element of its value, dispatching per element on the DetailType
discriminator through detail_dict with the list_dict class as fallback;
any other key is assigned raw. Python raises TypeError when the input of
from_json is not a mapping or when a list_dict value is not a sequence;
instances are created empty (entity class bodies are not in src/, and
the spec says instances are created empty). -/
def FromJsonMixin.from_json (cls : TyDesc) : JVal → Except PyExc PyVal
  | .jobj fields => do
    let out ← from_json_fields cls fields
    pure (.vobj cls.name out)
  | _ => throw (.typeError "from_json input is not a mapping")

/-- One attribute assignment per input key, in input order. -/
def from_json_fields (cls : TyDesc) :
    List (String × JVal) → Except PyExc (List (String × PyVal))
  | [] => pure []
  | (k, v) :: rest => do
    let hd ←
      match alookup k cls.class_dict with
      | some sub => FromJsonMixin.from_json sub v
      | none =>
        match alookup k cls.list_dict with
        | some dflt =>
          match v with
          | .jarr elems => do
            let l ← from_json_list cls dflt elems
            pure (.vlist l)
          | _ => throw (.typeError "iteration over a non-sequence")
        | none => pure (jToPy v)
    let tl ← from_json_fields cls rest
    pure ((k, hd) :: tl)

/-- Element-wise decoding of a polymorphic list field: an element whose
DetailType is a key of the parent class detail_dict is instantiated as
that class, every other element as the list_dict default class. -/
def from_json_list (cls dflt : TyDesc) : List JVal → Except PyExc (List PyVal)
  | [] => pure []
  | data :: rest => do
    let sub :=
      match detail_of data with
      | some s =>
        match alookup s cls.detail_dict with
        | some d => d
        | none => dflt
      | none => dflt
    let hd ← FromJsonMixin.from_json sub data
    let tl ← from_json_list cls dflt rest
    pure (hd :: tl)
end

/-- One remote transport operation performed through the client. -/
inductive Call where
  | create_object (name : String) (body : JVal)
  | update_object (name : String) (body : JVal)
  | delete_object (name : String) (body : JVal)
  | post (url : String) (body : JVal)
  | download_pdf (name : String) (id : PyVal)

/-- The transport client (quickbooks/client.py, an external collaborator
per the spec): response functions for each remote operation, plus the
two fields the mixins read. -/
structure QuickBooks where
  create_object_resp : String → JVal → JVal
  update_object_resp : String → JVal → JVal
  delete_object_resp : String → JVal → JVal
  post_resp : String → JVal → JVal
  download_pdf_resp : String → PyVal → JVal
  api_url : String
  company_id : String

/-- Response handling shared by both save branches:
`type(self).from_json(json_data[key])` with Python indexing errors. -/
def save_decode (cls : TyDesc) (key : String) (json_data : JVal) : Except PyExc PyVal :=
  match json_data with
  | .jobj fields =>
    match alookup key fields with
    | none => throw (.keyError key)
    | some j => FromJsonMixin.from_json cls j
  | _ => throw (.typeError "response is not subscriptable")

/-- The save dispatch condition `self.Id and int(self.Id) > 0`:
true selects update, false selects create, and a raise of int()
propagates. -/
def save_dispatch (idv : PyVal) : Except PyExc Bool :=
  if py_truthy idv then do
    let n ← py_int idv
    pure (decide (0 < n))
  else pure false

/-- The tail of save after the transport call: decode failure
propagates; on success the Id of the decoded object is copied onto the
caller and both are returned. -/
def save_finish (call : Call) (self : List (String × PyVal))
    (dec : Except PyExc PyVal) :
    List Call × Except PyExc (List (String × PyVal) × PyVal) :=
  match dec with
  | .error e => ([call], .error e)
  | .ok obj =>
    let self2 := aset "Id" (obj.attr "Id") self
    ([call], .ok (self2, obj))

/-- UpdateMixin.save. Dispatch: `if self.Id and int(self.Id) > 0` picks
update_object, otherwise create_object; the encoded body is sent; the
response is unwrapped at qbo_json_object_name when that is nonempty,
else at qbo_object_name; the unwrapped payload is decoded to a fresh
instance whose Id is copied back onto the caller. Returns the list of
transport calls made together with either the raised exception or the
pair (mutated self dict, decoded fresh object). -/
def UpdateMixin.save (cls : TyDesc) (qbo_object_name qbo_json_object_name : String)
    (self : List (String × PyVal)) (qb : QuickBooks) :
    List Call × Except PyExc (List (String × PyVal) × PyVal) :=
  match save_dispatch (getattr self "Id") with
  | .error e => ([], .error e)
  | .ok is_update =>
    let body := ToJsonMixin.to_json self
    let call := if is_update then Call.update_object qbo_object_name body
                else Call.create_object qbo_object_name body
    let json_data := if is_update then qb.update_object_resp qbo_object_name body
                     else qb.create_object_resp qbo_object_name body
    let key := if qbo_json_object_name ≠ "" then qbo_json_object_name else qbo_object_name
    save_finish call self (save_decode cls key json_data)

/-- DeleteMixin.delete: raises the domain error on a falsy Id before any
transport call; otherwise sends exactly the sparse Id/SyncToken payload. -/
def DeleteMixin.delete (qbo_object_name : String) (self : List (String × PyVal))
    (qb : QuickBooks) : List Call × Except PyExc JVal :=
  if !py_truthy (getattr self "Id") then
    ([], .error (.quickbooksException "Cannot delete unsaved object"))
  else
    let data : PyVal := .vdict [("Id", getattr self "Id"), ("SyncToken", getattr self "SyncToken")]
    let body := dumps_val data
    ([Call.delete_object qbo_object_name body], .ok (qb.delete_object_resp qbo_object_name body))

/-- VoidMixin.get_void_params: the fixed per-type table of request
parameters, with the default void operation for every other type. -/
def VoidMixin.get_void_params (qbo_object_name : String) : List (String × PyVal) :=
  let qb_object_params_map : List (String × List (String × PyVal)) :=
    [ ("Payment", [("operation", .vstr "update"), ("include", .vstr "void")]),
      ("SalesReceipt", [("operation", .vstr "update"), ("include", .vstr "void")]),
      ("BillPayment", [("operation", .vstr "update"), ("include", .vstr "void")]),
      ("Invoice", [("operation", .vstr "void")]) ]
  (alookup qbo_object_name qb_object_params_map).getD [("operation", .vstr "void")]

/-- VoidMixin.get_void_data: the fixed per-type table of request bodies,
with the default void operation body for every other type. -/
def VoidMixin.get_void_data (qbo_object_name : String)
    (self : List (String × PyVal)) : List (String × PyVal) :=
  let idv := getattr self "Id"
  let st := getattr self "SyncToken"
  let qb_object_params_map : List (String × List (String × PyVal)) :=
    [ ("Payment", [("Id", idv), ("SyncToken", st), ("sparse", .vbool true)]),
      ("SalesReceipt", [("Id", idv), ("SyncToken", st), ("sparse", .vbool true)]),
      ("BillPayment", [("Id", idv), ("SyncToken", st), ("sparse", .vbool true)]),
      ("Invoice", [("Id", idv), ("SyncToken", st)]) ]
  (alookup qbo_object_name qb_object_params_map).getD [("operation", .vstr "void")]

/-- Python str.lower restricted to ASCII letters, as applied to the
entity type names appearing in the modelled code. -/
def py_lower (s : String) : String :=
  String.mk (s.toList.map Char.toLower)

/-- VoidMixin.void: raises the domain error on a falsy Id before any
transport call; otherwise posts the get_void_data body (serialized with
DecimalEncoder) to api_url/company/company_id/name-lowered with the
get_void_params parameters. -/
def VoidMixin.void (qbo_object_name : String) (self : List (String × PyVal))
    (qb : QuickBooks) : List Call × Except PyExc JVal :=
  if !py_truthy (getattr self "Id") then
    ([], .error (.quickbooksException "Cannot void unsaved object"))
  else
    let endpoint := py_lower qbo_object_name
    let url := qb.api_url ++ "/company/" ++ qb.company_id ++ "/" ++ endpoint
    let data := VoidMixin.get_void_data qbo_object_name self
    let body := dumps_val (.vdict data)
    ([Call.post url body], .ok (qb.post_resp url body))

/-- QuickbooksPdfDownloadable.download_pdf: returns the download when
`self.Id and int(self.Id) > 0 and qb is not None`, and raises the
domain error otherwise (a non-numeric Id makes int() itself raise). -/
def QuickbooksPdfDownloadable.download_pdf (qbo_object_name : String)
    (self : List (String × PyVal)) (qb : Option QuickBooks) :
    List Call × Except PyExc JVal :=
  let idv := getattr self "Id"
  let failMsg := "Cannot download " ++ qbo_object_name ++
    " when no Id is assigned or if no quickbooks client is passed in"
  if py_truthy idv then
    match py_int idv with
    | .error e => ([], .error e)
    | .ok n =>
      if 0 < n then
        match qb with
        | some qbc => ([Call.download_pdf qbo_object_name idv],
                       .ok (qbc.download_pdf_resp qbo_object_name idv))
        | none => ([], .error (.quickbooksException failMsg))
      else ([], .error (.quickbooksException failMsg))
  else ([], .error (.quickbooksException failMsg))

/-- A value passed for the start_position / max_results parameters of
the query builders: the Python call sites pass either the default empty
string or a number. -/
inductive QParam where
  | s (v : String)
  | i (v : Int)

/-- str(x) as applied by the query builders. -/
def QParam.fmt : QParam → String
  | .s v => v
  | .i v => toString v

/-- Python truthiness of such a value. -/
def QParam.truthy : QParam → Bool
  | .s v => !v.isEmpty
  | .i v => v != 0

/-- The comparison `start_position != ""` (an int never equals a str). -/
def QParam.ne_empty_str : QParam → Bool
  | .s v => !v.isEmpty
  | .i _ => true

/-- ListMixin.where select-string construction (the built string is then
passed to query unchanged). Note the literal space between the object
name and the WHERE fragment in the format string, and that the
start_position clause is guarded by `!= ""` while the max_results clause
is guarded by truthiness (so an integer 0 start_position still renders). -/
def ListMixin.where_select (qbo_object_name : String)
    (where_clause order_by : String) (start_position max_results : QParam) : String :=
  let wc := if !where_clause.isEmpty then "WHERE " ++ where_clause else where_clause
  let ob := if !order_by.isEmpty then " ORDERBY " ++ order_by else order_by
  let sp := if start_position.ne_empty_str then
    QParam.s (" STARTPOSITION " ++ start_position.fmt) else start_position
  let mr := if max_results.truthy then
    QParam.s (" MAXRESULTS " ++ max_results.fmt) else max_results
  "SELECT * FROM " ++ qbo_object_name ++ " " ++ wc ++ ob ++ sp.fmt ++ mr.fmt

/-- ListMixin.all select-string construction: Item (alone) gets the Sku
field appended to the select list; every clause here is guarded by
truthiness. Defaults at the call site: order_by empty, start_position
the empty string, max_results the integer 100. -/
def ListMixin.all_select (qbo_object_name : String)
    (order_by : String) (start_position max_results : QParam) : String :=
  let base := if qbo_object_name = "Item" then "SELECT *, Sku FROM " ++ qbo_object_name
              else "SELECT * FROM " ++ qbo_object_name
  let s1 := if !order_by.isEmpty then base ++ " ORDER BY " ++ order_by else base
  let s2 := if start_position.truthy then s1 ++ " STARTPOSITION " ++ start_position.fmt else s1
  if max_results.truthy then s2 ++ " MAXRESULTS " ++ max_results.fmt else s2

/-- A transport client used to instantiate the theorems at concrete
inputs. -/
def qb0 : QuickBooks where
  create_object_resp := fun name _ => .jobj [(name, .jobj [("Id", .jstr "7"), ("Name", .jstr "West")])]
  update_object_resp := fun name _ => .jobj [(name, .jobj [("Id", .jstr "9")])]
  delete_object_resp := fun _ _ => .jnull
  post_resp := fun _ _ => .jnull
  download_pdf_resp := fun _ _ => .jnull
  api_url := "https://qb.example"
  company_id := "123"

/-- The Department entity class (no nested or list fields take part in
the save claims). -/
def cls0 : TyDesc := .mk "Department" [] [] []

def self0 : List (String × PyVal) := [("Name", .vstr "Sales"), ("Id", .vnone)]

/-- Modelled from the spec: the JournalEntryLineDetail entity class
(entity class bodies are not under src/); it has no nested or list
fields of its own in the modelled fragment. -/
def JournalEntryLineDetail_desc : TyDesc := .mk "JournalEntryLineDetail" [] [] []

/-- Modelled from the spec: the JournalEntryLine entity class, whose
class_dict maps the JournalEntryLineDetail key to the concrete
line-detail class (spec: decoding must yield the matching concrete
line-detail type with nested PostingType accessible). -/
def JournalEntryLine_desc : TyDesc :=
  .mk "JournalEntryLine" [("JournalEntryLineDetail", JournalEntryLineDetail_desc)] [] []

/-- Modelled from the spec: the JournalEntry entity class: Line is a
polymorphic list field whose detail_dict maps the DetailType value
JournalEntryLineDetail to the line class. -/
def JournalEntry_desc : TyDesc :=
  .mk "JournalEntry" [] [("Line", JournalEntryLine_desc)]
    [("JournalEntryLineDetail", JournalEntryLine_desc)]

/-- The JSON input of the decode example: one Line element carrying the
JournalEntryLineDetail discriminator. -/
def je_json : JVal := .jobj
  [ ("DocNumber", .jstr "123"),
    ("TotalAmt", .jint 100),
    ("Line", .jarr
      [ .jobj
        [ ("Id", .jstr "0"),
          ("Description", .jstr "Test"),
          ("DetailType", .jstr "JournalEntryLineDetail"),
          ("JournalEntryLineDetail", .jobj [("PostingType", .jstr "Debit")]) ] ]) ]

/-- The decoded Line element of the example. -/
def je_line : PyVal := .vobj "JournalEntryLine"
  [ ("Id", .vstr "0"),
    ("Description", .vstr "Test"),
    ("DetailType", .vstr "JournalEntryLineDetail"),
    ("JournalEntryLineDetail", .vobj "JournalEntryLineDetail" [("PostingType", .vstr "Debit")]) ]

/-- The primitive attribute values of the amended round-trip claim:
str, int and bool survive a JSON round trip unchanged (Decimal does
not, which is the counterexample). -/
def prim_ok : PyVal → Bool
  | .vstr _ => true
  | .vint _ => true
  | .vbool _ => true
  | _ => false

/-- Attribute dict keys listed in (non-strictly) sorted order, so the
sort_keys emission order equals the dict order. -/
def keys_sorted : List (String × PyVal) → Bool
  | [] => true
  | [_] => true
  | p :: q :: rest => str_le p.1 q.1 && keys_sorted (q :: rest)

mutual
/-- A well-formed entity for the round-trip claim: the instance is of
the given class, its attribute keys are sorted and public, values are
non-None primitives (str, int, bool) for keys outside the decode
tables, nested well-formed instances of the mapped class for class_dict
keys, and there are no list fields. -/
def wf_obj (t : TyDesc) : PyVal → Bool
  | .vobj ty fs => ty == t.name && keys_sorted fs && wf_fields t fs
  | _ => false

/-- Well-formedness of one attribute dict against a class. -/
def wf_fields (t : TyDesc) : List (String × PyVal) → Bool
  | [] => true
  | (k, v) :: rest =>
    !underscored k
    && (match alookup k t.class_dict with
        | some sub => wf_obj sub v
        | none => (alookup k t.list_dict).isNone && prim_ok v)
    && wf_fields t rest
end

mutual
/-- Size measure on Python values, for the round-trip induction. -/
def psize : PyVal → Nat
  | .vobj _ fs => 1 + psize_fields fs
  | .vdict fs => 1 + psize_fields fs
  | .vlist l => 1 + psize_list l
  | _ => 1

def psize_fields : List (String × PyVal) → Nat
  | [] => 0
  | (_, v) :: rest => 1 + psize v + psize_fields rest

def psize_list : List PyVal → Nat
  | [] => 0
  | v :: rest => 1 + psize v + psize_list rest
end

theorem alookup_aset_ne {α : Type} (k k2 : String) (v : α) (l : List (String × α))
    (h : k ≠ k2) : alookup k (aset k2 v l) = alookup k l := by
  induction l with
  | nil => simp [aset, alookup, h]
  | cons p rest ih =>
    obtain ⟨k3, v3⟩ := p
    by_cases h2 : k2 = k3
    · subst h2
      simp [aset, alookup, h]
    · simp only [aset, if_neg h2, alookup]
      by_cases h3 : k = k3
      · simp [h3]
      · simp [h3, ih]

/-- C3: on an entity whose Id is falsy, delete, void and download_pdf
raise QuickbooksException and perform no transport call, whatever the
client is. -/
theorem spec_C3 :
    ∀ (name : String) (self : List (String × PyVal)),
      py_truthy (getattr self "Id") = false →
        (∀ qb, DeleteMixin.delete name self qb
            = ([], .error (.quickbooksException "Cannot delete unsaved object")))
        ∧ (∀ qb, VoidMixin.void name self qb
            = ([], .error (.quickbooksException "Cannot void unsaved object")))
        ∧ (∀ qb, QuickbooksPdfDownloadable.download_pdf name self qb
            = ([], .error (.quickbooksException ("Cannot download " ++ name ++
                " when no Id is assigned or if no quickbooks client is passed in")))) := by
  intro name self h
  refine ⟨fun qb => ?_, fun qb => ?_, fun qb => ?_⟩
  · simp [DeleteMixin.delete, h]
  · simp [VoidMixin.void, h]
  · simp [QuickbooksPdfDownloadable.download_pdf, h]

/-- C3 witness: an entity with no Id at all, against the concrete
client. -/
theorem spec_C3_witness :
    DeleteMixin.delete "Bill" [] qb0
        = ([], .error (.quickbooksException "Cannot delete unsaved object"))
    ∧ VoidMixin.void "Bill" [] qb0
        = ([], .error (.quickbooksException "Cannot void unsaved object"))
    ∧ QuickbooksPdfDownloadable.download_pdf "Bill" [] (some qb0)
        = ([], .error (.quickbooksException ("Cannot download Bill" ++
            " when no Id is assigned or if no quickbooks client is passed in"))) :=
  ⟨(spec_C3 "Bill" [] rfl).1 qb0, (spec_C3 "Bill" [] rfl).2.1 qb0,
   (spec_C3 "Bill" [] rfl).2.2 (some qb0)⟩

/-- C7: the where builder produces exactly the expected select string,
and an integer zero start_position still renders its clause. -/
theorem spec_C7 :
    ListMixin.where_select "Department" "Active=True" "" (.i 1) (.i 10)
      = "SELECT * FROM Department WHERE Active=True STARTPOSITION 1 MAXRESULTS 10"
    ∧ ListMixin.where_select "Department" "Active=True" "" (.i 0) (.i 10)
      = "SELECT * FROM Department WHERE Active=True STARTPOSITION 0 MAXRESULTS 10" :=
  ⟨rfl, rfl⟩

/-- C8: all with no arguments on Department builds exactly the expected
string; Item alone gets the Sku field appended, every other type name
keeps the plain select list. -/
theorem spec_C8 :
    ListMixin.all_select "Department" "" (.s "") (.i 100)
      = "SELECT * FROM Department MAXRESULTS 100"
    ∧ ListMixin.all_select "Item" "" (.s "") (.i 100)
      = "SELECT *, Sku FROM Item MAXRESULTS 100"
    ∧ ∀ (name order_by : String) (sp mr : QParam), name ≠ "Item" →
        ∃ rest, ListMixin.all_select name order_by sp mr
          = "SELECT * FROM " ++ name ++ rest := by
  refine ⟨rfl, rfl, fun name order_by sp mr h => ?_⟩
  refine ⟨(if !order_by.isEmpty then " ORDER BY " ++ order_by else "")
      ++ (if sp.truthy then " STARTPOSITION " ++ sp.fmt else "")
      ++ (if mr.truthy then " MAXRESULTS " ++ mr.fmt else ""), ?_⟩
  simp only [ListMixin.all_select, if_neg h]
  split <;> split <;> split <;> simp [String.append_assoc]

/-- C8 witness: the generic no-Sku fact applied to the Customer type. -/
theorem spec_C8_witness :
    ∃ rest, ListMixin.all_select "Customer" "" (.s "") (.i 100)
      = "SELECT * FROM " ++ "Customer" ++ rest :=
  spec_C8.2.2 "Customer" "" (.s "") (.i 100) (by decide)

/-- C9: the void payload table: sparse Id/SyncToken bodies for Payment,
SalesReceipt and BillPayment, the non-sparse body for Invoice, update
with include=void parameters for the first three, and the void operation
parameter for Invoice and for every other type name. -/
theorem spec_C9 :
    (∀ self, VoidMixin.get_void_data "Payment" self
        = [("Id", getattr self "Id"), ("SyncToken", getattr self "SyncToken"), ("sparse", .vbool true)])
    ∧ (∀ self, VoidMixin.get_void_data "SalesReceipt" self
        = [("Id", getattr self "Id"), ("SyncToken", getattr self "SyncToken"), ("sparse", .vbool true)])
    ∧ (∀ self, VoidMixin.get_void_data "BillPayment" self
        = [("Id", getattr self "Id"), ("SyncToken", getattr self "SyncToken"), ("sparse", .vbool true)])
    ∧ (∀ self, VoidMixin.get_void_data "Invoice" self
        = [("Id", getattr self "Id"), ("SyncToken", getattr self "SyncToken")])
    ∧ VoidMixin.get_void_params "Payment" = [("operation", .vstr "update"), ("include", .vstr "void")]
    ∧ VoidMixin.get_void_params "SalesReceipt" = [("operation", .vstr "update"), ("include", .vstr "void")]
    ∧ VoidMixin.get_void_params "BillPayment" = [("operation", .vstr "update"), ("include", .vstr "void")]
    ∧ VoidMixin.get_void_params "Invoice" = [("operation", .vstr "void")]
    ∧ ∀ name, name ∉ ["Payment", "SalesReceipt", "BillPayment", "Invoice"] →
        VoidMixin.get_void_params name = [("operation", .vstr "void")] := by
  refine ⟨fun _ => rfl, fun _ => rfl, fun _ => rfl, fun _ => rfl, rfl, rfl, rfl, rfl, ?_⟩
  intro name h
  simp only [List.mem_cons, List.not_mem_nil, or_false, not_or] at h
  obtain ⟨h1, h2, h3, h4⟩ := h
  simp [VoidMixin.get_void_params, alookup, h1, h2, h3, h4]

/-- C9 witness: the default parameter branch applied to the Purchase
type. -/
theorem spec_C9_witness :
    VoidMixin.get_void_params "Purchase" = [("operation", .vstr "void")] :=
  spec_C9.2.2.2.2.2.2.2.2 "Purchase" (by decide)

/-- C10: for every type name outside the bespoke table, the void body is
exactly the operation-void dict, holding neither Id nor SyncToken, and a
void call on such an entity with a truthy Id posts exactly that body. -/
theorem spec_C10 :
    ∀ name self, name ∉ ["Payment", "SalesReceipt", "BillPayment", "Invoice"] →
      VoidMixin.get_void_data name self = [("operation", .vstr "void")]
      ∧ alookup "Id" (VoidMixin.get_void_data name self) = none
      ∧ alookup "SyncToken" (VoidMixin.get_void_data name self) = none
      ∧ ∀ qb, py_truthy (getattr self "Id") = true →
          (VoidMixin.void name self qb).1
            = [Call.post (qb.api_url ++ "/company/" ++ qb.company_id ++ "/" ++ py_lower name)
                (dumps_val (.vdict [("operation", .vstr "void")]))] := by
  intro name self h
  simp only [List.mem_cons, List.not_mem_nil, or_false, not_or] at h
  obtain ⟨h1, h2, h3, h4⟩ := h
  have hdata : VoidMixin.get_void_data name self = [("operation", .vstr "void")] := by
    simp [VoidMixin.get_void_data, alookup, h1, h2, h3, h4]
  refine ⟨hdata, by simp [hdata, alookup], by simp [hdata, alookup], ?_⟩
  intro qb hid
  simp [VoidMixin.void, hid, hdata]

/-- C10 witness: voiding a Purchase with a set Id posts the bare
operation-void body. -/
theorem spec_C10_witness :
    VoidMixin.get_void_data "Purchase" [("Id", .vstr "42"), ("SyncToken", .vint 0)]
        = [("operation", .vstr "void")]
    ∧ alookup "Id" (VoidMixin.get_void_data "Purchase" [("Id", .vstr "42"), ("SyncToken", .vint 0)]) = none
    ∧ alookup "SyncToken" (VoidMixin.get_void_data "Purchase" [("Id", .vstr "42"), ("SyncToken", .vint 0)]) = none
    ∧ ∀ qb, py_truthy (getattr [("Id", PyVal.vstr "42"), ("SyncToken", PyVal.vint 0)] "Id") = true →
        (VoidMixin.void "Purchase" [("Id", .vstr "42"), ("SyncToken", .vint 0)] qb).1
          = [Call.post (qb.api_url ++ "/company/" ++ qb.company_id ++ "/" ++ py_lower "Purchase")
              (dumps_val (.vdict [("operation", .vstr "void")]))] := by
  have h := spec_C10 "Purchase" [("Id", .vstr "42"), ("SyncToken", .vint 0)] (by decide)
  exact ⟨h.1, h.2.1, h.2.2.1, fun qb _ => h.2.2.2 qb rfl⟩

theorem alookup_aset_self {α : Type} (k : String) (v : α) (l : List (String × α)) :
    alookup k (aset k v l) = some v := by
  induction l with
  | nil => simp [aset, alookup]
  | cons p rest ih =>
    obtain ⟨k3, v3⟩ := p
    by_cases h : k = k3
    · subst h; simp [aset, alookup]
    · simp [aset, alookup, h, ih]

theorem save_dispatch_vnone : save_dispatch .vnone = .ok false := rfl

theorem save_dispatch_vint (n : Int) : save_dispatch (.vint n) = .ok (decide (0 < n)) := by
  by_cases h : n = 0
  · subst h; rfl
  · simp [save_dispatch, py_truthy, py_int, h]
    rfl

theorem save_finish_fst (call : Call) (self : List (String × PyVal))
    (dec : Except PyExc PyVal) : (save_finish call self dec).1 = [call] := by
  cases dec <;> rfl

theorem save_finish_ok (call : Call) (self self2 : List (String × PyVal))
    (dec : Except PyExc PyVal) (obj : PyVal)
    (h : (save_finish call self dec).2 = .ok (self2, obj)) :
    self2 = aset "Id" (obj.attr "Id") self := by
  cases dec with
  | error e => exact absurd h (by simp [save_finish])
  | ok o =>
    simp only [save_finish, Except.ok.injEq, Prod.mk.injEq] at h
    rw [← h.1, h.2]

theorem save_components (cls : TyDesc) (name jname : String)
    (self : List (String × PyVal)) (qb : QuickBooks) (b : Bool)
    (hb : save_dispatch (getattr self "Id") = .ok b) :
    (UpdateMixin.save cls name jname self qb).1
      = [if b then Call.update_object name (ToJsonMixin.to_json self)
         else Call.create_object name (ToJsonMixin.to_json self)]
    ∧ ∀ self2 obj, (UpdateMixin.save cls name jname self qb).2 = .ok (self2, obj) →
        self2 = aset "Id" (obj.attr "Id") self := by
  have hsave : UpdateMixin.save cls name jname self qb
      = save_finish (if b then Call.update_object name (ToJsonMixin.to_json self)
          else Call.create_object name (ToJsonMixin.to_json self)) self
          (save_decode cls (if jname ≠ "" then jname else name)
            (if b then qb.update_object_resp name (ToJsonMixin.to_json self)
             else qb.create_object_resp name (ToJsonMixin.to_json self))) := by
    rw [UpdateMixin.save, hb]
  rw [hsave]
  exact ⟨save_finish_fst _ _ _, fun self2 obj h => save_finish_ok _ _ _ _ _ h⟩

/-- C1: save dispatches on the Id: update_object exactly when the Id is
a positive integer, create_object when it is None or a non-positive
integer; and whenever the call returns a result, the Id on the caller
equals the Id of the entity decoded from the response. -/
theorem spec_C1 :
    ∀ (cls : TyDesc) (name jname : String) (self : List (String × PyVal)) (qb : QuickBooks)
      (tr : List Call) (res : Except PyExc (List (String × PyVal) × PyVal)),
      (getattr self "Id" = .vnone ∨ ∃ n : Int, getattr self "Id" = .vint n) →
      UpdateMixin.save cls name jname self qb = (tr, res) →
      ((∃ n : Int, getattr self "Id" = .vint n ∧ 0 < n) →
          tr = [Call.update_object name (ToJsonMixin.to_json self)])
      ∧ ((¬ ∃ n : Int, getattr self "Id" = .vint n ∧ 0 < n) →
          tr = [Call.create_object name (ToJsonMixin.to_json self)])
      ∧ (∀ self2 obj, res = .ok (self2, obj) → getattr self2 "Id" = obj.attr "Id") := by
  intro cls name jname self qb tr res hid heq
  have htr : tr = (UpdateMixin.save cls name jname self qb).1 := by rw [heq]
  have hres : res = (UpdateMixin.save cls name jname self qb).2 := by rw [heq]
  rcases hid with hnone | ⟨n, hint⟩
  · have hb : save_dispatch (getattr self "Id") = .ok false := by
      rw [hnone]; exact save_dispatch_vnone
    obtain ⟨h1, h2⟩ := save_components cls name jname self qb false hb
    refine ⟨?_, ?_, ?_⟩
    · rintro ⟨m, hm, -⟩
      rw [hnone] at hm
      exact absurd hm (by simp)
    · intro _
      rw [htr, h1]
      simp
    · intro self2 obj hok
      rw [hres] at hok
      have := h2 self2 obj hok
      subst this
      rw [getattr, alookup_aset_self]
      rfl
  · have hb : save_dispatch (getattr self "Id") = .ok (decide (0 < n)) := by
      rw [hint]; exact save_dispatch_vint n
    obtain ⟨h1, h2⟩ := save_components cls name jname self qb (decide (0 < n)) hb
    refine ⟨?_, ?_, ?_⟩
    · rintro ⟨m, hm, hpos⟩
      rw [hint] at hm
      obtain rfl : n = m := by
        have := PyVal.vint.injEq n m ▸ hm
        simpa using hm
      rw [htr, h1, if_pos (by simpa using hpos)]
    · intro hnopos
      have hnp : ¬ (0 < n) := by
        intro hp
        exact hnopos ⟨n, hint, hp⟩
      rw [htr, h1, if_neg (by simpa using hnp)]
    · intro self2 obj hok
      rw [hres] at hok
      have := h2 self2 obj hok
      subst this
      rw [getattr, alookup_aset_self]
      rfl

/-- C1 witness: a concrete create round for an Id of None against the
concrete client: the caller ends up carrying the Id decoded from the
response. -/
theorem spec_C1_witness :
    getattr [("Name", PyVal.vstr "Sales"), ("Id", PyVal.vstr "7")] "Id"
      = (PyVal.vobj "Department" [("Id", PyVal.vstr "7"), ("Name", PyVal.vstr "West")]).attr "Id" :=
  (spec_C1 cls0 "Department" "" self0 qb0
      [Call.create_object "Department" (ToJsonMixin.to_json self0)]
      (.ok ([("Name", PyVal.vstr "Sales"), ("Id", PyVal.vstr "7")],
        PyVal.vobj "Department" [("Id", PyVal.vstr "7"), ("Name", PyVal.vstr "West")]))
      (Or.inl rfl) rfl).2.2
    [("Name", PyVal.vstr "Sales"), ("Id", PyVal.vstr "7")]
    (PyVal.vobj "Department" [("Id", PyVal.vstr "7"), ("Name", PyVal.vstr "West")]) rfl

/-- C2: save mutates only the Id attribute of the caller: every other
attribute keeps its previous value whenever save returns a result. -/
theorem spec_C2 :
    ∀ (cls : TyDesc) (name jname : String) (self : List (String × PyVal)) (qb : QuickBooks)
      (tr : List Call) (self2 : List (String × PyVal)) (obj : PyVal),
      UpdateMixin.save cls name jname self qb = (tr, .ok (self2, obj)) →
      ∀ k, k ≠ "Id" → alookup k self2 = alookup k self := by
  intro cls name jname self qb tr self2 obj heq k hk
  rcases hd : save_dispatch (getattr self "Id") with e | b
  · rw [UpdateMixin.save, hd] at heq
    exact absurd (Prod.mk.injEq _ _ _ _ ▸ heq).2 (by simp)
  · obtain ⟨-, h2⟩ := save_components cls name jname self qb b hd
    have : self2 = aset "Id" (obj.attr "Id") self := h2 self2 obj (by rw [heq])
    subst this
    exact alookup_aset_ne k "Id" _ self hk

/-- C2 witness: after a concrete create round, the Name attribute of the
caller is untouched. -/
theorem spec_C2_witness :
    alookup "Name" [("Name", PyVal.vstr "Sales"), ("Id", PyVal.vstr "7")]
      = alookup "Name" self0 :=
  spec_C2 cls0 "Department" "" self0 qb0
    [Call.create_object "Department" (ToJsonMixin.to_json self0)]
    [("Name", PyVal.vstr "Sales"), ("Id", PyVal.vstr "7")]
    (PyVal.vobj "Department" [("Id", PyVal.vstr "7"), ("Name", PyVal.vstr "West")])
    rfl "Name" (by decide)

theorem chars_le_total : ∀ as bs, chars_le as bs = true ∨ chars_le bs as = true := by
  intro as
  induction as with
  | nil => intro bs; left; rfl
  | cons a as ih =>
    intro bs
    cases bs with
    | nil => right; rfl
    | cons b bs =>
      by_cases hab : a = b
      · subst hab
        rcases ih bs with h | h
        · left; simpa [chars_le] using h
        · right; simpa [chars_le] using h
      · rcases lt_trichotomy a b with hlt | heq | hgt
        · left; simp [chars_le, hab, hlt]
        · exact absurd heq hab
        · have hba : ¬ b = a := fun h => hab h.symm
          right; simp [chars_le, hba, hgt]

theorem chars_le_trans :
    ∀ as bs cs, chars_le as bs = true → chars_le bs cs = true → chars_le as cs = true := by
  intro as
  induction as with
  | nil => intro bs cs _ _; rfl
  | cons a as ih =>
    intro bs cs h1 h2
    cases bs with
    | nil => exact absurd h1 (by simp [chars_le])
    | cons b bs =>
      cases cs with
      | nil => exact absurd h2 (by simp [chars_le])
      | cons c cs =>
        by_cases hab : a = b
        · subst hab
          by_cases hbc : a = c
          · subst hbc
            simp only [chars_le, if_pos rfl] at h1 h2 ⊢
            exact ih bs cs h1 h2
          · simp only [chars_le, if_pos rfl] at h1
            simp only [chars_le, if_neg hbc] at h2 ⊢
            exact h2
        · simp only [chars_le, if_neg hab, decide_eq_true_eq] at h1
          by_cases hbc : b = c
          · subst hbc
            simp [chars_le, hab, h1]
          · simp only [chars_le, if_neg hbc, decide_eq_true_eq] at h2
            have hac : a < c := lt_trans h1 h2
            simp [chars_le, ne_of_lt hac, hac]

theorem mem_sortFields (p : String × JVal) (l : List (String × JVal)) :
    p ∈ sortFields l ↔ p ∈ l :=
  (List.perm_insertionSort _ l).mem_iff

theorem sortFields_sorted (l : List (String × JVal)) :
    List.Sorted (fun p q => str_le p.1 q.1 = true) (sortFields l) := by
  haveI : IsTotal (String × JVal) (fun p q => str_le p.1 q.1 = true) :=
    ⟨fun p q => chars_le_total p.1.toList q.1.toList⟩
  haveI : IsTrans (String × JVal) (fun p q => str_le p.1 q.1 = true) :=
    ⟨fun p q r => chars_le_trans p.1.toList q.1.toList r.1.toList⟩
  exact List.sorted_insertionSort _ l

theorem mem_dumps_objfields (k : String) (j : JVal) (fs : List (String × PyVal)) :
    (k, j) ∈ dumps_objfields fs
      ↔ ∃ v, (k, v) ∈ fs ∧ underscored k = false ∧ v.isNone = false ∧ j = dumps_val v := by
  induction fs with
  | nil => simp [dumps_objfields]
  | cons p rest ih =>
    obtain ⟨k2, v2⟩ := p
    by_cases hkeep : !underscored k2 && !v2.isNone
    · rw [dumps_objfields, if_pos hkeep]
      simp only [Bool.and_eq_true, Bool.not_eq_true', Bool.not_eq_true] at hkeep
      constructor
      · intro hmem
        rcases List.mem_cons.mp hmem with hhd | htl
        · obtain ⟨hk, hj⟩ := Prod.mk.injEq _ _ _ _ ▸ hhd
          subst hk
          exact ⟨v2, List.mem_cons_self _ _, hkeep.1, hkeep.2, hj⟩
        · obtain ⟨v, hv, hu, hn, hj⟩ := ih.mp htl
          exact ⟨v, List.mem_cons_of_mem _ hv, hu, hn, hj⟩
      · rintro ⟨v, hv, hu, hn, hj⟩
        rcases List.mem_cons.mp hv with hhd | htl
        · obtain ⟨hk, hveq⟩ := Prod.mk.injEq _ _ _ _ ▸ hhd
          subst hk hveq hj
          exact List.mem_cons_self _ _
        · exact List.mem_cons_of_mem _ (ih.mpr ⟨v, htl, hu, hn, hj⟩)
    · rw [dumps_objfields, if_neg hkeep]
      simp only [Bool.and_eq_true, Bool.not_eq_true', Bool.not_eq_true, not_and_or] at hkeep
      rw [ih]
      constructor
      · rintro ⟨v, hv, hu, hn, hj⟩
        exact ⟨v, List.mem_cons_of_mem _ hv, hu, hn, hj⟩
      · rintro ⟨v, hv, hu, hn, hj⟩
        rcases List.mem_cons.mp hv with hhd | htl
        · obtain ⟨hk, hveq⟩ := Prod.mk.injEq _ _ _ _ ▸ hhd
          subst hk hveq
          rcases hkeep with hk1 | hk2
          · exact absurd hu hk1
          · exact absurd hn hk2
        · exact ⟨v, htl, hu, hn, hj⟩

/-- C5: to_json emits a JSON object whose keys are exactly the public
(non-underscore) attribute names with non-None values, with the pairs in
sorted key order, and with every Decimal attribute rendered as its exact
string representation. -/
theorem spec_C5 :
    ∀ fs : List (String × PyVal), ∃ out,
      ToJsonMixin.to_json fs = .jobj out
      ∧ (∀ k, (∃ j, (k, j) ∈ out)
          ↔ (∃ v, (k, v) ∈ fs ∧ underscored k = false ∧ v.isNone = false))
      ∧ List.Sorted (fun p q => str_le p.1 q.1 = true) out
      ∧ (∀ k s, (k, PyVal.vdec s) ∈ fs → underscored k = false → (k, JVal.jstr s) ∈ out) := by
  intro fs
  refine ⟨sortFields (dumps_objfields fs), rfl, ?_, sortFields_sorted _, ?_⟩
  · intro k
    constructor
    · rintro ⟨j, hj⟩
      obtain ⟨v, hv, hu, hn, -⟩ := (mem_dumps_objfields k j fs).mp ((mem_sortFields _ _).mp hj)
      exact ⟨v, hv, hu, hn⟩
    · rintro ⟨v, hv, hu, hn⟩
      exact ⟨dumps_val v, (mem_sortFields _ _).mpr
        ((mem_dumps_objfields k (dumps_val v) fs).mpr ⟨v, hv, hu, hn, rfl⟩)⟩
  · intro k s hmem hu
    exact (mem_sortFields _ _).mpr ((mem_dumps_objfields k (JVal.jstr s) fs).mpr
      ⟨PyVal.vdec s, hmem, hu, rfl, rfl⟩)

/-- C5 witness: a concrete entity with a private attribute, a None
attribute and a Decimal attribute. -/
theorem spec_C5_witness :
    ∃ out, ToJsonMixin.to_json
        [("B", PyVal.vstr "x"), ("A", PyVal.vnone), ("_c", PyVal.vint 1), ("D", PyVal.vdec "10.50")]
      = .jobj out ∧ ("D", JVal.jstr "10.50") ∈ out := by
  obtain ⟨out, hout, -, -, hdec⟩ := spec_C5
    [("B", PyVal.vstr "x"), ("A", PyVal.vnone), ("_c", PyVal.vint 1), ("D", PyVal.vdec "10.50")]
  exact ⟨out, hout, hdec "D" "10.50" (by simp) rfl⟩

theorem from_json_ok_shape (cls : TyDesc) (j : JVal) (obj : PyVal)
    (h : FromJsonMixin.from_json cls j = .ok obj) :
    ∃ flds, obj = .vobj cls.name flds := by
  cases j with
  | jobj fields =>
    rw [FromJsonMixin.from_json] at h
    rcases hf : from_json_fields cls fields with e | out
    · rw [hf] at h
      exact absurd h (by simp [Bind.bind, Except.bind])
    · rw [hf] at h
      simp only [Bind.bind, Except.bind, pure, Except.pure, Except.ok.injEq] at h
      exact ⟨out, h.symm⟩
  | jnull => exact Except.noConfusion h
  | jstr s => exact Except.noConfusion h
  | jint n => exact Except.noConfusion h
  | jbool b => exact Except.noConfusion h
  | jarr elems => exact Except.noConfusion h

theorem unknown_fields_decode (cls : TyDesc) (fs : List (String × JVal))
    (h : ∀ k v, (k, v) ∈ fs → alookup k cls.class_dict = none ∧ alookup k cls.list_dict = none) :
    from_json_fields cls fs = .ok (jToPy_fields fs) := by
  induction fs with
  | nil => rfl
  | cons p rest ih =>
    obtain ⟨k, v⟩ := p
    obtain ⟨hc, hl⟩ := h k v (List.mem_cons_self _ _)
    have ihh := ih (fun k2 v2 hm => h k2 v2 (List.mem_cons_of_mem _ hm))
    rw [from_json_fields, hc, hl, ihh]
    rfl

/-- C4: decoding a list field dispatches per element on the DetailType
discriminator: a hit in detail_dict decodes the element as that class
(and any successful decode is an instance of the chosen class); a miss
or an absent discriminator falls back to the list_dict default class;
keys in neither class_dict nor list_dict are assigned raw and can never
make decoding fail; and the JournalEntry example decodes to the concrete
line type with the nested PostingType accessible. -/
theorem spec_C4 :
    (∀ (cls dflt : TyDesc) (data : JVal) (rest : List JVal) (s : String) (d : TyDesc),
      detail_of data = some s → alookup s cls.detail_dict = some d →
      from_json_list cls dflt (data :: rest)
        = (FromJsonMixin.from_json d data).bind (fun hd =>
            (from_json_list cls dflt rest).bind (fun tl => pure (hd :: tl))))
    ∧ (∀ (cls : TyDesc) (j : JVal) (obj : PyVal),
        FromJsonMixin.from_json cls j = .ok obj → ∃ flds, obj = .vobj cls.name flds)
    ∧ (∀ (cls dflt : TyDesc) (data : JVal) (rest : List JVal),
        (detail_of data = none ∨ ∃ s, detail_of data = some s ∧ alookup s cls.detail_dict = none) →
        from_json_list cls dflt (data :: rest)
          = (FromJsonMixin.from_json dflt data).bind (fun hd =>
              (from_json_list cls dflt rest).bind (fun tl => pure (hd :: tl))))
    ∧ (∀ (cls : TyDesc) (fs : List (String × JVal)),
        (∀ k v, (k, v) ∈ fs → alookup k cls.class_dict = none ∧ alookup k cls.list_dict = none) →
        FromJsonMixin.from_json cls (.jobj fs) = .ok (.vobj cls.name (jToPy_fields fs)))
    ∧ FromJsonMixin.from_json JournalEntry_desc je_json
        = .ok (.vobj "JournalEntry"
            [ ("DocNumber", .vstr "123"), ("TotalAmt", .vint 100), ("Line", .vlist [je_line]) ])
    ∧ (je_line.attr "JournalEntryLineDetail").attr "PostingType" = .vstr "Debit" := by
  refine ⟨?_, from_json_ok_shape, ?_, ?_, by rfl, by rfl⟩
  · intro cls dflt data rest s d hdet hhit
    rw [from_json_list, hdet]
    simp only [hhit]
    rfl
  · intro cls dflt data rest hmiss
    rcases hmiss with hnone | ⟨s, hsome, hmiss⟩
    · rw [from_json_list, hnone]
      rfl
    · rw [from_json_list, hsome]
      simp only [hmiss]
      rfl
  · intro cls fs h
    rw [FromJsonMixin.from_json, unknown_fields_decode cls fs h]
    rfl

/-- C4 witness: the detail dispatch equation instantiated on the
concrete JournalEntry line element, plus the unknown-key branch on a
vendor field no table mentions. -/
theorem spec_C4_witness :
    from_json_list JournalEntry_desc JournalEntryLine_desc
        [ .jobj
          [ ("Id", .jstr "0"),
            ("Description", .jstr "Test"),
            ("DetailType", .jstr "JournalEntryLineDetail"),
            ("JournalEntryLineDetail", .jobj [("PostingType", .jstr "Debit")]) ] ]
      = (FromJsonMixin.from_json JournalEntryLine_desc
          (.jobj
            [ ("Id", .jstr "0"),
              ("Description", .jstr "Test"),
              ("DetailType", .jstr "JournalEntryLineDetail"),
              ("JournalEntryLineDetail", .jobj [("PostingType", .jstr "Debit")]) ])).bind
          (fun hd => (from_json_list JournalEntry_desc JournalEntryLine_desc []).bind
            (fun tl => pure (hd :: tl)))
    ∧ FromJsonMixin.from_json JournalEntryLineDetail_desc (.jobj [("NewVendorKey", .jstr "x")])
      = .ok (.vobj "JournalEntryLineDetail" (jToPy_fields [("NewVendorKey", .jstr "x")])) :=
  ⟨spec_C4.1 JournalEntry_desc JournalEntryLine_desc _ [] "JournalEntryLineDetail"
      JournalEntryLine_desc rfl rfl,
   spec_C4.2.2.2.1 JournalEntryLineDetail_desc [("NewVendorKey", .jstr "x")]
      (by intro k v h; simp only [List.mem_singleton, Prod.mk.injEq] at h; exact ⟨rfl, rfl⟩)⟩

/-- C6 counterexample: a Decimal attribute breaks the decode-encode
round trip: to_json renders Decimal("10.50") as the JSON string
"10.50", so from_json gives back a str attribute, and in Python a str
never equals a Decimal. -/
theorem spec_C6_cex :
    FromJsonMixin.from_json cls0 (ToJsonMixin.to_json [("Amount", PyVal.vdec "10.50")])
      = .ok (.vobj "Department" [("Amount", PyVal.vstr "10.50")])
    ∧ (Except.ok (PyVal.vobj "Department" [("Amount", PyVal.vstr "10.50")])
        : Except PyExc PyVal)
      ≠ .ok (.vobj "Department" [("Amount", PyVal.vdec "10.50")]) := by
  refine ⟨rfl, ?_⟩
  intro h
  simp only [Except.ok.injEq, PyVal.vobj.injEq, List.cons.injEq, Prod.mk.injEq, true_and,
    and_true] at h
  exact PyVal.noConfusion h

theorem dumps_fields_eq_map :
    ∀ fs, dumps_fields fs = fs.map (fun p => (p.1, dumps_val p.2)) := by
  intro fs
  induction fs with
  | nil => rfl
  | cons p rest ih =>
    obtain ⟨k, v⟩ := p
    rw [dumps_fields, ih]
    rfl

theorem wf_fields_no_drop (t : TyDesc) :
    ∀ fs, wf_fields t fs = true →
      ∀ p ∈ fs, underscored p.1 = false ∧ p.2.isNone = false := by
  intro fs
  induction fs with
  | nil => intro _ p hp; exact absurd hp (List.not_mem_nil p)
  | cons q rest ih =>
    obtain ⟨k, v⟩ := q
    intro h p hp
    rw [wf_fields] at h
    simp only [Bool.and_eq_true, Bool.not_eq_true'] at h
    obtain ⟨⟨hund, hbranch⟩, hrest⟩ := h
    rcases List.mem_cons.mp hp with rfl | htail
    · refine ⟨hund, ?_⟩
      rcases halk : alookup k t.class_dict with - | sub
      · rw [halk] at hbranch
        simp only [Bool.and_eq_true] at hbranch
        cases v <;> simp_all [prim_ok, PyVal.isNone]
      · rw [halk] at hbranch
        cases v <;> simp_all [wf_obj, PyVal.isNone]
    · exact ih hrest p htail

theorem dumps_objfields_eq :
    ∀ fs, (∀ p ∈ fs, underscored p.1 = false ∧ p.2.isNone = false) →
      dumps_objfields fs = dumps_fields fs := by
  intro fs
  induction fs with
  | nil => intro _; rfl
  | cons q rest ih =>
    obtain ⟨k, v⟩ := q
    intro h
    obtain ⟨hund, hnone⟩ := h (k, v) (List.mem_cons_self _ _)
    rw [dumps_objfields, if_pos (by simp [hund, hnone]), dumps_fields,
      ih (fun p hp => h p (List.mem_cons_of_mem _ hp))]

theorem keys_sorted_pairwise :
    ∀ fs, keys_sorted fs = true →
      List.Pairwise (fun p q : String × PyVal => str_le p.1 q.1 = true) fs := by
  intro fs
  induction fs with
  | nil => intro _; exact List.Pairwise.nil
  | cons p rest ih =>
    cases rest with
    | nil => intro _; exact List.pairwise_singleton _ _
    | cons q rest2 =>
      intro h
      rw [keys_sorted] at h
      simp only [Bool.and_eq_true] at h
      obtain ⟨hpq, hrest⟩ := h
      have hp := ih hrest
      refine List.Pairwise.cons ?_ hp
      intro x hx
      rcases List.mem_cons.mp hx with rfl | hx2
      · exact hpq
      · exact chars_le_trans _ _ _ hpq ((List.pairwise_cons.mp hp).1 x hx2)

theorem sorted_dumps (fs : List (String × PyVal)) (h : keys_sorted fs = true) :
    List.Sorted (fun p q : String × JVal => str_le p.1 q.1 = true) (dumps_fields fs) := by
  rw [dumps_fields_eq_map]
  exact (keys_sorted_pairwise fs h).map _ (fun a b hab => hab)

theorem roundtrip_N : ∀ N : Nat,
    (∀ (t : TyDesc) (ty : String) (fs : List (String × PyVal)),
      psize (.vobj ty fs) ≤ N → wf_obj t (.vobj ty fs) = true →
      FromJsonMixin.from_json t (dumps_val (.vobj ty fs)) = .ok (.vobj ty fs))
    ∧ (∀ (t : TyDesc) (fs : List (String × PyVal)),
      psize_fields fs ≤ N → wf_fields t fs = true →
      from_json_fields t (dumps_fields fs) = .ok fs) := by
  intro N
  induction N using Nat.strong_induction_on with
  | _ N ih =>
    constructor
    · intro t ty fs hsize hwf
      rw [wf_obj] at hwf
      simp only [Bool.and_eq_true, beq_iff_eq] at hwf
      obtain ⟨⟨hty, hsorted⟩, hwff⟩ := hwf
      have hnd := wf_fields_no_drop t fs hwff
      have hobj : dumps_val (.vobj ty fs) = .jobj (dumps_fields fs) := by
        rw [dumps_val, dumps_objfields_eq fs hnd, sortFields,
          (sorted_dumps fs hsorted).insertionSort_eq]
      have hfs_lt : psize_fields fs < N := by
        have hx : psize (.vobj ty fs) = 1 + psize_fields fs := rfl
        omega
      have hfields := (ih (psize_fields fs) hfs_lt).2 t fs (le_refl _) hwff
      rw [hobj, FromJsonMixin.from_json, hfields]
      subst hty
      rfl
    · intro t fs hsize hwf
      cases fs with
      | nil => rfl
      | cons p rest =>
        obtain ⟨k, v⟩ := p
        rw [wf_fields] at hwf
        simp only [Bool.and_eq_true, Bool.not_eq_true'] at hwf
        obtain ⟨⟨hund, hbranch⟩, hrest⟩ := hwf
        have hrest_lt : psize_fields rest < N := by
          have hx : psize_fields ((k, v) :: rest) = 1 + psize v + psize_fields rest := rfl
          omega
        have htl := (ih (psize_fields rest) hrest_lt).2 t rest (le_refl _) hrest
        rw [dumps_fields, from_json_fields]
        rcases halk : alookup k t.class_dict with - | sub
        · rw [halk] at hbranch
          simp only [Bool.and_eq_true, Option.isNone_iff_eq_none] at hbranch
          obtain ⟨hlist, hprim⟩ := hbranch
          have hjv : jToPy (dumps_val v) = v := by
            cases v <;> first | rfl | simp [prim_ok] at hprim
          simp only [halk, hlist, hjv, htl]
          rfl
        · rw [halk] at hbranch
          cases v with
          | vobj ty2 fs2 =>
            have hv_lt : psize (.vobj ty2 fs2) < N := by
              have hx : psize_fields ((k, PyVal.vobj ty2 fs2) :: rest)
                  = 1 + psize (.vobj ty2 fs2) + psize_fields rest := rfl
              omega
            have hsub := (ih (psize (.vobj ty2 fs2)) hv_lt).1 sub ty2 fs2 (le_refl _) hbranch
            simp only [halk, hsub, htl]
            rfl
          | vnone => simp [wf_obj] at hbranch
          | vstr s => simp [wf_obj] at hbranch
          | vint n => simp [wf_obj] at hbranch
          | vbool b => simp [wf_obj] at hbranch
          | vdec s => simp [wf_obj] at hbranch
          | vdict f2 => simp [wf_obj] at hbranch
          | vlist l2 => simp [wf_obj] at hbranch

/-- C6 amended: the round trip decode(encode(e)) = e holds for every
well-formed entity: only nested-entity fields matching the class_dict
and non-None str/int/bool primitive fields (in particular no Decimal
fields, which the counterexample rules out), with public keys in sorted
order and no list fields. -/
theorem spec_C6 :
    ∀ (t : TyDesc) (ty : String) (fs : List (String × PyVal)),
      wf_obj t (.vobj ty fs) = true →
      FromJsonMixin.from_json t (ToJsonMixin.to_json fs) = .ok (.vobj ty fs) := by
  intro t ty fs h
  exact (roundtrip_N (psize (.vobj ty fs))).1 t ty fs (le_refl _) h

/-- C6 witness: a concrete Invoice-shaped entity with one nested
reference object and two primitive attributes round-trips exactly. -/
theorem spec_C6_witness :
    FromJsonMixin.from_json
        (.mk "Invoice" [("CurrencyRef", .mk "Ref" [] [] [])] [] [])
        (ToJsonMixin.to_json
          [ ("CurrencyRef", .vobj "Ref" [("value", .vstr "USD")]),
            ("DocNumber", .vstr "42"),
            ("TotalAmt", .vint 100) ])
      = .ok (.vobj "Invoice"
          [ ("CurrencyRef", .vobj "Ref" [("value", .vstr "USD")]),
            ("DocNumber", .vstr "42"),
            ("TotalAmt", .vint 100) ]) :=
  spec_C6 (.mk "Invoice" [("CurrencyRef", .mk "Ref" [] [] [])] [] []) "Invoice"
    [ ("CurrencyRef", .vobj "Ref" [("value", .vstr "USD")]),
      ("DocNumber", .vstr "42"),
      ("TotalAmt", .vint 100) ] (by rfl)
